import Mathlib

/-!
Verification of the component-library repository's data layer: the Prisma
schema (migration SQL), the seed script `prisma/seed.ts`, and the client
singleton `src/lib/prisma.ts`, shallowly embedded as Lean definitions.
Tables are lists of row records; the ORM operations used by the code are
explicit state-passing functions that mirror the constraints declared in
the migration (primary keys, the `Favorite(userId, componentId)` unique
index, and the `ON DELETE CASCADE` foreign keys from `Favorite` and
`ComponentVersion` to `Component`).
-/

namespace ComponentLibrary

/-- A row of the `Component` table, per the `CREATE TABLE "Component"`
statement of the migration: text columns, `TEXT[]` arrays as lists,
booleans, and the integer counters `views` and `copies` (which default
to 0).  The server-assigned timestamps are not modelled. -/
structure ComponentRow where
  id : String
  name : String
  description : String
  category : String
  tags : List String
  filePath : String
  componentPath : String
  code : String
  dependencies : List String
  responsive : Bool
  darkMode : Bool
  views : Nat
  copies : Nat
  deriving Repr, DecidableEq

/-- A row of the `Favorite` table: primary key `id`, plus the
`(userId, componentId)` pair covered by the unique index
`Favorite_userId_componentId_key`. -/
structure FavoriteRow where
  id : String
  userId : String
  componentId : String
  deriving Repr, DecidableEq

/-- A row of the `ComponentVersion` table: a historical code snapshot
with an optional changelog (`changelog` is nullable in the migration). -/
structure VersionRow where
  id : String
  componentId : String
  version : String
  code : String
  changelog : Option String
  deriving Repr, DecidableEq

/-- A row of the `User` table: unique email, optional display name,
role flag. -/
structure UserRow where
  id : String
  email : String
  name : Option String
  role : String
  deriving Repr, DecidableEq

/-- The database state: one list per table of the migration. -/
structure DB where
  components : List ComponentRow
  favorites : List FavoriteRow
  versions : List VersionRow
  users : List UserRow
  deriving Repr, DecidableEq

/-- The freshly migrated database: all four tables empty. -/
def emptyDB : DB := ⟨[], [], [], []⟩

/-- An entry of the static catalog `componentRegistry` as the seed script
reads it: the fields accessed in `prisma/seed.ts` lines 19-29.
`dependencies` is optional because the script guards it with
`comp.dependencies || []`. -/
structure CatalogEntry where
  id : String
  name : String
  description : String
  category : String
  tags : List String
  filePath : String
  componentPath : String
  code : String
  dependencies : Option (List String)
  responsive : Bool
  darkMode : Bool
  deriving Repr, DecidableEq

/-- The row the seed script inserts for a catalog entry
(`prisma.component.create({ data: {...} })`, seed.ts lines 17-31): every
catalog field is copied verbatim, `dependencies` falls back to `[]` when
absent, and the unsupplied `views` and `copies` columns take the schema
defaults `0`. -/
def entryToRow (e : CatalogEntry) : ComponentRow :=
  { id := e.id
    name := e.name
    description := e.description
    category := e.category
    tags := e.tags
    filePath := e.filePath
    componentPath := e.componentPath
    code := e.code
    dependencies := e.dependencies.getD []
    responsive := e.responsive
    darkMode := e.darkMode
    views := 0
    copies := 0 }

/-- `prisma.component.deleteMany({})` (seed.ts line 12): removes every
`Component` row; by the `ON DELETE CASCADE` foreign keys of the
migration, every `Favorite` and `ComponentVersion` row whose
`componentId` references a deleted component is removed too.  `User`
rows are untouched. -/
def deleteAllComponents (db : DB) : DB :=
  let deletedIds := db.components.map (fun r => r.id)
  { db with
    components := []
    favorites := db.favorites.filter (fun f => !(deletedIds.contains f.componentId))
    versions := db.versions.filter (fun v => !(deletedIds.contains v.componentId)) }

/-- `prisma.component.delete` / `deleteMany` for one id: removes the
component rows whose `id` matches, cascading to the `Favorite` and
`ComponentVersion` rows that reference a deleted row. -/
def deleteComponent (db : DB) (cid : String) : DB :=
  let deletedIds := (db.components.filter (fun r => r.id == cid)).map (fun r => r.id)
  { db with
    components := db.components.filter (fun r => !(r.id == cid))
    favorites := db.favorites.filter (fun f => !(deletedIds.contains f.componentId))
    versions := db.versions.filter (fun v => !(deletedIds.contains v.componentId)) }

/-- `prisma.component.create` for one catalog entry (seed.ts lines
17-31): the insert succeeds (appending `entryToRow e`) unless the
primary-key constraint `Component_pkey` rejects a duplicate `id`, in
which case the database is unchanged and the call fails. -/
def insertComponent (db : DB) (e : CatalogEntry) : Option DB :=
  if db.components.any (fun r => r.id == e.id) then none
  else some { db with components := db.components ++ [entryToRow e] }

/-- The seed script's per-entry loop (seed.ts lines 16-33): inserts the
entries in order, stopping at the first failed insert.  Returns the
database state when the loop ends together with a success flag; on
failure the state holds everything inserted before the failing entry
(the ORM runs each `create` as its own statement, so there is no
rollback). -/
def seedLoop (db : DB) : List CatalogEntry → DB × Bool
  | [] => (db, true)
  | e :: rest =>
    match insertComponent db e with
    | some db' => seedLoop db' rest
    | none => (db, false)

/-- The body of `main()` in seed.ts: delete all components (line 12),
then insert every catalog entry in order (lines 16-33). -/
def seedMain (db : DB) (registry : List CatalogEntry) : DB × Bool :=
  seedLoop (deleteAllComponents db) registry

/-- Observable outcome of one run of the seed script process. -/
structure ScriptResult where
  db : DB
  exitCode : Nat
  errorLogged : Bool
  disconnected : Bool
  deriving Repr, DecidableEq

/-- The whole seed script `main().catch(...).finally(...)` (seed.ts
lines 38-45) under JavaScript promise semantics: on success the
`finally` handler runs and awaits `prisma.$disconnect()`; on failure the
`catch` handler logs the error and calls `process.exit(1)`, which
terminates the Node process synchronously inside the handler, so the
`finally` callback (and hence the disconnect) never runs. -/
def runSeedScript (db : DB) (registry : List CatalogEntry) : ScriptResult :=
  match seedMain db registry with
  | (db', true) => { db := db', exitCode := 0, errorLogged := false, disconnected := true }
  | (db', false) => { db := db', exitCode := 1, errorLogged := true, disconnected := false }

/-- `prisma.favorite.create`: rejected (database unchanged, call fails)
when the primary key `Favorite_pkey` is violated, when the unique index
`Favorite_userId_componentId_key` already holds the `(userId,
componentId)` pair, or when the foreign key `Favorite_componentId_fkey`
finds no referenced component; otherwise the row is appended. -/
def insertFavorite (db : DB) (f : FavoriteRow) : Option DB :=
  if db.favorites.any (fun g => g.id == f.id) then none
  else if db.favorites.any (fun g => g.userId == f.userId && g.componentId == f.componentId) then
    none
  else if !(db.components.any (fun r => r.id == f.componentId)) then none
  else some { db with favorites := db.favorites ++ [f] }

/-- `prisma.favorite.delete` by id: removes the matching rows. -/
def deleteFavorite (db : DB) (fid : String) : DB :=
  { db with favorites := db.favorites.filter (fun f => !(f.id == fid)) }

/-- `prisma.componentVersion.create`: primary key and foreign key
checks, then append. -/
def insertVersion (db : DB) (v : VersionRow) : Option DB :=
  if db.versions.any (fun w => w.id == v.id) then none
  else if !(db.components.any (fun r => r.id == v.componentId)) then none
  else some { db with versions := db.versions ++ [v] }

/-- `prisma.user.create`: primary key and `User_email_key` unique
checks, then append. -/
def insertUser (db : DB) (u : UserRow) : Option DB :=
  if db.users.any (fun w => w.id == u.id) then none
  else if db.users.any (fun w => w.email == u.email) then none
  else some { db with users := db.users ++ [u] }

/-- One database operation of the modelled repository surface. -/
inductive Step : DB → DB → Prop
  | deleteAll (db : DB) : Step db (deleteAllComponents db)
  | deleteComp (db : DB) (cid : String) : Step db (deleteComponent db cid)
  | insertComp {db db' : DB} {e : CatalogEntry} :
      insertComponent db e = some db' → Step db db'
  | insertFav {db db' : DB} {f : FavoriteRow} :
      insertFavorite db f = some db' → Step db db'
  | deleteFav (db : DB) (fid : String) : Step db (deleteFavorite db fid)
  | insertVer {db db' : DB} {v : VersionRow} :
      insertVersion db v = some db' → Step db db'
  | insertUsr {db db' : DB} {u : UserRow} :
      insertUser db u = some db' → Step db db'
  | seed (db : DB) (registry : List CatalogEntry) : Step db (seedMain db registry).1

/-- Database states reachable from the freshly migrated database by the
modelled operations. -/
inductive Reachable : DB → Prop
  | init : Reachable emptyDB
  | step {db db' : DB} : Reachable db → Step db db' → Reachable db'

/-- The invariant enforced by `Favorite_userId_componentId_key`: no two
`Favorite` rows share the same `(userId, componentId)` pair. -/
def FavUnique (db : DB) : Prop :=
  db.favorites.Pairwise (fun a b => ¬(a.userId = b.userId ∧ a.componentId = b.componentId))

/-! ## The client singleton (`src/lib/prisma.ts`)

`globalForPrisma.prisma ?? new PrismaClient()` with the global slot
written back when `NODE_ENV !== 'production'`.  Client instances are
identified by a creation counter; `globalPrisma` is the
`globalForPrisma.prisma` slot, which survives development-time module
reloads while module-level bindings are re-evaluated. -/

/-- The process-global state the singleton module reads and writes. -/
structure ModState where
  globalPrisma : Option Nat
  nextId : Nat
  deriving Repr, DecidableEq

/-- A fresh Node process: no client stored, none created yet. -/
def initModState : ModState := ⟨none, 0⟩

/-- One (re-)evaluation of the module: take the stored client if any,
else construct a new one (`??`); then, outside production, store the
resulting client in the global slot.  Returns the exported `prisma`
binding and the updated global state. -/
def evalModule (isProd : Bool) (s : ModState) : Nat × ModState :=
  match s.globalPrisma with
  | some c =>
      (c, if isProd then s else { s with globalPrisma := some c })
  | none =>
      let s' : ModState := { s with nextId := s.nextId + 1 }
      (s.nextId, if isProd then s' else { s' with globalPrisma := some s.nextId })

/-- `n` successive evaluations of the module (development-time code
reloads re-run the module body against the surviving global state):
the list of client instances handed out, and the final state. -/
def evalRuns (isProd : Bool) : Nat → ModState → List Nat × ModState
  | 0, s => ([], s)
  | n + 1, s =>
      ((evalModule isProd s).1 :: (evalRuns isProd n (evalModule isProd s).2).1,
       (evalRuns isProd n (evalModule isProd s).2).2)

/-! ## Concrete sample data (used by the witness theorems) -/

def sampleEntryA : CatalogEntry :=
  ⟨"a", "Alpha", "first", "button", ["x"], "/a.tsx", "@/a", "codeA", some ["dep"], true, false⟩

def sampleEntryB : CatalogEntry :=
  ⟨"b", "Beta", "second", "card", ["y"], "/b.tsx", "@/b", "codeB", none, false, true⟩

def sampleRegistry : List CatalogEntry := [sampleEntryA, sampleEntryB]

/-- A registry whose second entry repeats the first id, so its insert
violates `Component_pkey` and the seed loop fails mid-way. -/
def dupRegistry : List CatalogEntry := [sampleEntryA, sampleEntryA]

def favB0 : FavoriteRow := ⟨"f0", "u0", "b"⟩

/-- A populated database satisfying referential integrity. -/
def sampleDB : DB :=
  ⟨[entryToRow sampleEntryB], [favB0], [⟨"v0", "b", "1.0", "c", none⟩],
   [⟨"usr1", "e@x", none, "user"⟩]⟩

def dbB : DB := ⟨[entryToRow sampleEntryB], [], [], []⟩

def dbBF : DB := ⟨[entryToRow sampleEntryB], [favB0], [], []⟩

/-- Two components, each with a favorite and a version. -/
def wdb3 : DB :=
  ⟨[entryToRow sampleEntryA, entryToRow sampleEntryB],
   [⟨"f1", "u1", "a"⟩, ⟨"f2", "u1", "b"⟩],
   [⟨"v1", "a", "1", "c", none⟩, ⟨"v2", "b", "1", "c", none⟩], []⟩

/-! ## Helper lemmas -/

theorem insertComponent_eq_some {db db' : DB} {e : CatalogEntry}
    (h : insertComponent db e = some db') :
    db'.components = db.components ++ [entryToRow e] ∧
    db'.favorites = db.favorites ∧ db'.versions = db.versions ∧ db'.users = db.users ∧
    db.components.any (fun r => r.id == e.id) = false := by
  rw [insertComponent] at h
  split at h
  · exact absurd h (by simp)
  · cases h
    rename_i hcond
    refine ⟨rfl, rfl, rfl, rfl, ?_⟩
    simpa using hcond

theorem seedLoop_frame (l : List CatalogEntry) : ∀ db : DB,
    (seedLoop db l).1.favorites = db.favorites ∧
    (seedLoop db l).1.versions = db.versions ∧
    (seedLoop db l).1.users = db.users := by
  induction l with
  | nil => intro db; exact ⟨rfl, rfl, rfl⟩
  | cons e rest ih =>
    intro db
    rw [seedLoop]
    cases hins : insertComponent db e with
    | none => exact ⟨rfl, rfl, rfl⟩
    | some db' =>
      obtain ⟨-, hf, hv, hu, -⟩ := insertComponent_eq_some hins
      obtain ⟨ihf, ihv, ihu⟩ := ih db'
      exact ⟨ihf.trans hf, ihv.trans hv, ihu.trans hu⟩

theorem seedLoop_success (l : List CatalogEntry) : ∀ db : DB,
    (seedLoop db l).2 = true →
    (seedLoop db l).1.components = db.components ++ l.map entryToRow := by
  induction l with
  | nil => intro db _; simp [seedLoop]
  | cons e rest ih =>
    intro db hok
    rw [seedLoop] at hok ⊢
    cases hins : insertComponent db e with
    | none => rw [hins] at hok; exact absurd hok (by simp)
    | some db' =>
      rw [hins] at hok
      obtain ⟨hc, -, -, -, -⟩ := insertComponent_eq_some hins
      rw [ih db' hok, hc]
      simp

theorem seedLoop_failure (l : List CatalogEntry) : ∀ db : DB,
    (seedLoop db l).2 = false →
    ∃ pre e suf, l = pre ++ e :: suf ∧
      (seedLoop db l).1.components = db.components ++ pre.map entryToRow ∧
      insertComponent (seedLoop db l).1 e = none := by
  induction l with
  | nil => intro db h; exact absurd h (by simp [seedLoop])
  | cons e rest ih =>
    intro db hfail
    rw [seedLoop] at hfail ⊢
    cases hins : insertComponent db e with
    | none =>
      refine ⟨[], e, rest, rfl, by simp, ?_⟩
      simpa using hins
    | some db' =>
      rw [hins] at hfail
      obtain ⟨pre, e', suf, hsplit, hcomp, hstuck⟩ := ih db' hfail
      obtain ⟨hc, -, -, -, -⟩ := insertComponent_eq_some hins
      refine ⟨e :: pre, e', suf, by rw [hsplit]; rfl, ?_, hstuck⟩
      rw [hcomp, hc]
      simp

theorem seedLoop_components_congr (l : List CatalogEntry) : ∀ db₁ db₂ : DB,
    db₁.components = db₂.components →
    (seedLoop db₁ l).1.components = (seedLoop db₂ l).1.components ∧
    (seedLoop db₁ l).2 = (seedLoop db₂ l).2 := by
  induction l with
  | nil => intro db₁ db₂ h; exact ⟨h, rfl⟩
  | cons e rest ih =>
    intro db₁ db₂ h
    by_cases hcond : db₂.components.any (fun r => r.id == e.id) = true
    · have h1 : insertComponent db₁ e = none := by
        unfold insertComponent; rw [h]; exact if_pos hcond
      have h2 : insertComponent db₂ e = none := by
        unfold insertComponent; exact if_pos hcond
      rw [seedLoop, seedLoop, h1, h2]
      exact ⟨h, rfl⟩
    · have h1 : insertComponent db₁ e =
          some { db₁ with components := db₂.components ++ [entryToRow e] } := by
        unfold insertComponent; rw [h]; exact if_neg hcond
      have h2 : insertComponent db₂ e =
          some { db₂ with components := db₂.components ++ [entryToRow e] } := by
        unfold insertComponent; exact if_neg hcond
      rw [seedLoop, seedLoop, h1, h2]
      exact ih _ _ rfl

theorem seedLoop_ids_nodup (l : List CatalogEntry) : ∀ db : DB,
    (db.components.map (fun r => r.id)).Nodup →
    (seedLoop db l).2 = true →
    ((seedLoop db l).1.components.map (fun r => r.id)).Nodup := by
  induction l with
  | nil => intro db h _; exact h
  | cons e rest ih =>
    intro db hnd hok
    rw [seedLoop] at hok ⊢
    cases hins : insertComponent db e with
    | none => rw [hins] at hok; exact absurd hok (by simp)
    | some db' =>
      rw [hins] at hok
      obtain ⟨hc, -, -, -, hany⟩ := insertComponent_eq_some hins
      refine ih db' ?_ hok
      rw [hc]
      simp only [List.map_append, List.map_cons, List.map_nil]
      rw [List.nodup_append]
      refine ⟨hnd, List.nodup_singleton _, ?_⟩
      intro a ha hb
      simp only [List.mem_singleton] at hb
      subst hb
      simp only [List.any_eq_false, beq_iff_eq] at hany
      simp only [List.mem_map] at ha
      obtain ⟨r, hr, hrid⟩ := ha
      exact hany r hr hrid

theorem seedLoop_preserves (l : List CatalogEntry) (P : ComponentRow → Prop)
    (hP : ∀ e, P (entryToRow e)) : ∀ db : DB,
    (∀ r ∈ db.components, P r) →
    ∀ r ∈ (seedLoop db l).1.components, P r := by
  induction l with
  | nil => intro db h; exact h
  | cons e rest ih =>
    intro db h
    rw [seedLoop]
    cases hins : insertComponent db e with
    | none => exact h
    | some db' =>
      refine ih db' ?_
      obtain ⟨hc, -, -, -, -⟩ := insertComponent_eq_some hins
      rw [hc]
      intro r hr
      rcases List.mem_append.1 hr with hr | hr
      · exact h r hr
      · rw [List.mem_singleton.1 hr]; exact hP e

theorem deleteAllComponents_components (db : DB) :
    (deleteAllComponents db).components = [] := rfl

theorem deleteAllComponents_users (db : DB) :
    (deleteAllComponents db).users = db.users := rfl

theorem evalRuns_stable (c k : Nat) : ∀ n : Nat,
    evalRuns false n ⟨some c, k⟩ = (List.replicate n c, ⟨some c, k⟩) := by
  intro n
  induction n with
  | zero => rfl
  | succ m ih =>
    have hmod : evalModule false ⟨some c, k⟩ = (c, ⟨some c, k⟩) := rfl
    rw [evalRuns, hmod, ih]
    rfl

theorem insertFavorite_eq_some {db db' : DB} {f : FavoriteRow}
    (h : insertFavorite db f = some db') :
    db'.favorites = db.favorites ++ [f] ∧
    db.favorites.any
      (fun g => g.userId == f.userId && g.componentId == f.componentId) = false := by
  rw [insertFavorite] at h
  split at h
  · exact absurd h (by simp)
  · split at h
    · exact absurd h (by simp)
    · rename_i hdup
      split at h
      · exact absurd h (by simp)
      · cases h
        exact ⟨rfl, by simpa using hdup⟩

theorem insertVersion_favorites {db db' : DB} {v : VersionRow}
    (h : insertVersion db v = some db') : db'.favorites = db.favorites := by
  rw [insertVersion] at h
  split at h
  · exact absurd h (by simp)
  · split at h
    · exact absurd h (by simp)
    · cases h; rfl

theorem insertUser_favorites {db db' : DB} {u : UserRow}
    (h : insertUser db u = some db') : db'.favorites = db.favorites := by
  rw [insertUser] at h
  split at h
  · exact absurd h (by simp)
  · split at h
    · exact absurd h (by simp)
    · cases h; rfl

theorem step_preserves_favUnique {db db' : DB} (hstep : Step db db')
    (hinv : FavUnique db) : FavUnique db' := by
  cases hstep with
  | deleteAll => exact hinv.sublist (List.filter_sublist _)
  | deleteComp cid => exact hinv.sublist (List.filter_sublist _)
  | deleteFav fid => exact hinv.sublist (List.filter_sublist _)
  | insertComp h =>
    show List.Pairwise _ _
    rw [(insertComponent_eq_some h).2.1]
    exact hinv
  | insertVer h =>
    show List.Pairwise _ _
    rw [insertVersion_favorites h]
    exact hinv
  | insertUsr h =>
    show List.Pairwise _ _
    rw [insertUser_favorites h]
    exact hinv
  | insertFav h =>
    obtain ⟨happ, hany⟩ := insertFavorite_eq_some h
    show List.Pairwise _ _
    rw [happ, List.pairwise_append]
    refine ⟨hinv, List.pairwise_singleton _ _, ?_⟩
    intro a ha b hb
    rw [List.mem_singleton] at hb
    subst hb
    simp only [List.any_eq_false, Bool.and_eq_true, beq_iff_eq, not_and] at hany
    intro hpair
    exact hany a ha hpair.1 hpair.2
  | seed reg =>
    show List.Pairwise _ _
    rw [show (seedMain db reg).1.favorites = (deleteAllComponents db).favorites from
      (seedLoop_frame reg (deleteAllComponents db)).1]
    exact hinv.sublist (List.filter_sublist _)

theorem reachable_favUnique : ∀ db : DB, Reachable db → FavUnique db := by
  intro db h
  induction h with
  | init => exact List.Pairwise.nil
  | step _ hstep ih => exact step_preserves_favUnique hstep ih

theorem insertFavorite_dup_rejected (db : DB) (f : FavoriteRow)
    (h : ∃ g ∈ db.favorites, g.userId = f.userId ∧ g.componentId = f.componentId) :
    insertFavorite db f = none := by
  obtain ⟨g, hg, hu, hc⟩ := h
  rw [insertFavorite]
  split
  · rfl
  · split
    · rfl
    · rename_i hdup
      exact absurd (List.any_eq_true.2 ⟨g, hg, by simp [hu, hc]⟩) hdup

theorem insertComponent_emptyDB_entryB : insertComponent emptyDB sampleEntryB = some dbB := by
  decide

theorem insertFavorite_dbB_favB0 : insertFavorite dbB favB0 = some dbBF := by
  decide

/-! ## The claims -/

/-- C5: in every database state reachable by the modelled operations
from the freshly migrated database, the Favorite table holds at most one
row per `(userId, componentId)` pair; and inserting a Favorite whose
pair already exists is rejected by the unique constraint
`Favorite_userId_componentId_key` — the insert fails and, failing, makes
no change to the table. -/
theorem favorite_unique_invariant :
    (∀ db : DB, Reachable db → FavUnique db) ∧
    (∀ (db : DB) (f : FavoriteRow),
      (∃ g ∈ db.favorites, g.userId = f.userId ∧ g.componentId = f.componentId) →
      insertFavorite db f = none) :=
  ⟨reachable_favUnique, insertFavorite_dup_rejected⟩

theorem favorite_unique_invariant_witness :
    FavUnique dbBF ∧ insertFavorite dbBF ⟨"f9", "u0", "b"⟩ = none :=
  ⟨favorite_unique_invariant.1 dbBF
    (Reachable.step
      (Reachable.step Reachable.init (Step.insertComp insertComponent_emptyDB_entryB))
      (Step.insertFav insertFavorite_dbB_favB0)),
   favorite_unique_invariant.2 dbBF ⟨"f9", "u0", "b"⟩
    ⟨favB0, by decide, by decide, by decide⟩⟩

/-- C1: for every static catalog, a successful run of the seed script
first deletes all existing Component rows and then inserts exactly one
row per catalog entry, so the table afterwards holds exactly
`registry.length` rows, in which each row carries that entry's id, name,
description, category, tags, filePath, componentPath, code, responsive
and darkMode values (`entryToRow` copies each field verbatim). -/
theorem seed_populates_catalog (db : DB) (registry : List CatalogEntry)
    (hok : (seedMain db registry).2 = true) :
    (seedMain db registry).1.components = registry.map entryToRow ∧
    (seedMain db registry).1.components.length = registry.length := by
  have h := seedLoop_success registry (deleteAllComponents db) hok
  rw [deleteAllComponents_components, List.nil_append] at h
  have h' : (seedMain db registry).1.components = registry.map entryToRow := h
  exact ⟨h', by rw [h', List.length_map]⟩

theorem seed_populates_catalog_witness :
    (seedMain sampleDB sampleRegistry).2 = true ∧
    (seedMain sampleDB sampleRegistry).1.components = sampleRegistry.map entryToRow :=
  ⟨by decide, (seed_populates_catalog sampleDB sampleRegistry (by decide)).1⟩

/-- C2: seeding is idempotent under sequential runs: the delete-all at
the start of each run clears the Component table, so a second run over
the same catalog produces exactly the Component table of the first run
(same rows, same success flag), and a successful run leaves no duplicate
rows (all ids distinct). -/
theorem seed_idempotent (db : DB) (registry : List CatalogEntry) :
    (seedMain (seedMain db registry).1 registry).1.components =
      (seedMain db registry).1.components ∧
    (seedMain (seedMain db registry).1 registry).2 = (seedMain db registry).2 ∧
    ((seedMain db registry).2 = true →
      ((seedMain db registry).1.components.map (fun r => r.id)).Nodup) := by
  have hcongr := seedLoop_components_congr registry
    (deleteAllComponents (seedMain db registry).1) (deleteAllComponents db) rfl
  refine ⟨hcongr.1, hcongr.2, fun hok => ?_⟩
  exact seedLoop_ids_nodup registry (deleteAllComponents db)
    (by rw [deleteAllComponents_components]; exact List.nodup_nil) hok

theorem seed_idempotent_witness :
    (seedMain (seedMain sampleDB sampleRegistry).1 sampleRegistry).1.components =
      (seedMain sampleDB sampleRegistry).1.components ∧
    ((seedMain sampleDB sampleRegistry).1.components.map (fun r => r.id)).Nodup :=
  ⟨(seed_idempotent sampleDB sampleRegistry).1,
   (seed_idempotent sampleDB sampleRegistry).2.2 (by decide)⟩

/-- C3: the seed run is not atomic: when it fails, the catalog splits as
`pre ++ e :: suf` where the insert of `e` is the one that failed, and
the Component table is left holding exactly the rows for the entries of
`pre` — the entries processed before the failure — the delete-all having
already run and nothing rolling the prefix back. -/
theorem seed_not_atomic (db : DB) (registry : List CatalogEntry)
    (hfail : (seedMain db registry).2 = false) :
    ∃ pre e suf, registry = pre ++ e :: suf ∧
      (seedMain db registry).1.components = pre.map entryToRow ∧
      insertComponent (seedMain db registry).1 e = none := by
  obtain ⟨pre, e, suf, hsplit, hcomp, hstuck⟩ :=
    seedLoop_failure registry (deleteAllComponents db) hfail
  rw [deleteAllComponents_components, List.nil_append] at hcomp
  exact ⟨pre, e, suf, hsplit, hcomp, hstuck⟩

theorem seed_not_atomic_witness :
    (seedMain sampleDB dupRegistry).2 = false ∧
    (∃ pre e suf, dupRegistry = pre ++ e :: suf ∧
      (seedMain sampleDB dupRegistry).1.components = pre.map entryToRow ∧
      insertComponent (seedMain sampleDB dupRegistry).1 e = none) :=
  ⟨by decide, seed_not_atomic sampleDB dupRegistry (by decide)⟩

/-- C4 (counterexample): a failing seed run is caught, logged, and exits
with status 1, but the database connection is NOT released: the
`process.exit(1)` call inside the `catch` handler terminates the process
before the `finally` handler (which awaits `prisma.$disconnect()`) can
run, refuting the claim that disconnect is invoked in both the success
and the failure case. -/
theorem seed_script_failure_skips_disconnect :
    (runSeedScript sampleDB dupRegistry).errorLogged = true ∧
    (runSeedScript sampleDB dupRegistry).exitCode = 1 ∧
    (runSeedScript sampleDB dupRegistry).disconnected = false := by decide

/-- C4 (amended): any failure of the seed script is caught, logged, and
makes the process exit with a non-zero status; the database connection
is released by the `finally` handler in the success case, but in the
failure case `process.exit(1)` pre-empts the `finally` handler, so the
connection is not released there. -/
theorem seed_script_outcome (db : DB) (registry : List CatalogEntry) :
    ((seedMain db registry).2 = false →
      (runSeedScript db registry).errorLogged = true ∧
      (runSeedScript db registry).exitCode ≠ 0 ∧
      (runSeedScript db registry).disconnected = false) ∧
    ((seedMain db registry).2 = true →
      (runSeedScript db registry).exitCode = 0 ∧
      (runSeedScript db registry).disconnected = true ∧
      (runSeedScript db registry).errorLogged = false) := by
  unfold runSeedScript
  cases hm : seedMain db registry with
  | mk db' ok => cases ok <;> simp

theorem seed_script_outcome_witness :
    ((runSeedScript sampleDB dupRegistry).errorLogged = true ∧
      (runSeedScript sampleDB dupRegistry).exitCode ≠ 0 ∧
      (runSeedScript sampleDB dupRegistry).disconnected = false) ∧
    ((runSeedScript sampleDB sampleRegistry).exitCode = 0 ∧
      (runSeedScript sampleDB sampleRegistry).disconnected = true ∧
      (runSeedScript sampleDB sampleRegistry).errorLogged = false) :=
  ⟨(seed_script_outcome sampleDB dupRegistry).1 (by decide),
   (seed_script_outcome sampleDB sampleRegistry).2 (by decide)⟩

/-- C9: for every catalog entry whose `dependencies` field is absent
(`none`, the embedding of a missing/undefined field), the seed script
inserts the row with `dependencies` equal to the empty list — the
`comp.dependencies || []` fallback — and in general the inserted value
is `dependencies.getD []`, a list, never a null or missing value. -/
theorem seed_dependencies_default (e : CatalogEntry) :
    (entryToRow e).dependencies = e.dependencies.getD [] ∧
    (e.dependencies = none → (entryToRow e).dependencies = []) :=
  ⟨rfl, fun h => by simp [entryToRow, h]⟩

theorem seed_dependencies_default_witness :
    sampleEntryB.dependencies = none ∧ (entryToRow sampleEntryB).dependencies = [] :=
  ⟨rfl, (seed_dependencies_default sampleEntryB).2 rfl⟩

/-- C10: the seed script never supplies the `views` and `copies`
counters on insert, so every Component row present after a seed run has
`views = 0` and `copies = 0`, the schema's column defaults. -/
theorem seed_counters_default (db : DB) (registry : List CatalogEntry) :
    ((seedMain db registry).1.components.all
      (fun r => r.views == 0 && r.copies == 0)) = true := by
  rw [List.all_eq_true]
  intro r hr
  have h := seedLoop_preserves registry (fun r => r.views = 0 ∧ r.copies = 0)
    (fun _ => ⟨rfl, rfl⟩) (deleteAllComponents db)
    (by intro r hr; rw [deleteAllComponents_components] at hr; cases hr) r hr
  simp [h.1, h.2]

/-- C6: deleting a Component row whose id is present cascades: the
resulting Favorite table is exactly the old one minus the rows whose
`componentId` references the deleted component, likewise for
ComponentVersion, so afterwards no Favorite or ComponentVersion of that
component remains. -/
theorem deleteComponent_cascades (db : DB) (cid : String)
    (h : cid ∈ db.components.map (fun r => r.id)) :
    (deleteComponent db cid).components =
      db.components.filter (fun r => !(r.id == cid)) ∧
    (deleteComponent db cid).favorites =
      db.favorites.filter (fun f => !(f.componentId == cid)) ∧
    (deleteComponent db cid).versions =
      db.versions.filter (fun v => !(v.componentId == cid)) ∧
    (∀ f ∈ (deleteComponent db cid).favorites, f.componentId ≠ cid) ∧
    (∀ v ∈ (deleteComponent db cid).versions, v.componentId ≠ cid) := by
  have hkey : ∀ x : String,
      (((db.components.filter fun r => r.id == cid).map fun r => r.id).contains x)
        = (x == cid) := by
    intro x
    by_cases hx : x = cid
    · subst hx
      rw [beq_self_eq_true]
      refine List.elem_iff.mpr ?_
      obtain ⟨r, hr, hrid⟩ := List.mem_map.1 h
      exact List.mem_map.2 ⟨r, List.mem_filter.2 ⟨hr, by simp [hrid]⟩, hrid⟩
    · rw [beq_false_of_ne hx, ← Bool.not_eq_true]
      intro hmem
      obtain ⟨r, hr, hrid⟩ := List.mem_map.1 (List.elem_iff.mp hmem)
      have hpred := (List.mem_filter.1 hr).2
      rw [beq_iff_eq] at hpred
      exact hx (hrid ▸ hpred)
  have hfav : (deleteComponent db cid).favorites =
      db.favorites.filter (fun f => !(f.componentId == cid)) :=
    List.filter_congr (fun f _ => by rw [hkey f.componentId])
  have hver : (deleteComponent db cid).versions =
      db.versions.filter (fun v => !(v.componentId == cid)) :=
    List.filter_congr (fun v _ => by rw [hkey v.componentId])
  refine ⟨rfl, hfav, hver, ?_, ?_⟩
  · intro f hf
    rw [hfav] at hf
    have := (List.mem_filter.1 hf).2
    simpa using this
  · intro v hv
    rw [hver] at hv
    have := (List.mem_filter.1 hv).2
    simpa using this

theorem deleteComponent_cascades_witness :
    ("a" ∈ wdb3.components.map (fun r => r.id)) ∧
    ((deleteComponent wdb3 "a").favorites =
      wdb3.favorites.filter (fun f => !(f.componentId == "a")) ∧
     (∀ f ∈ (deleteComponent wdb3 "a").favorites, f.componentId ≠ "a") ∧
     (∀ v ∈ (deleteComponent wdb3 "a").versions, v.componentId ≠ "a")) :=
  ⟨by decide,
   ⟨(deleteComponent_cascades wdb3 "a" (by decide)).2.1,
    (deleteComponent_cascades wdb3 "a" (by decide)).2.2.2.1,
    (deleteComponent_cascades wdb3 "a" (by decide)).2.2.2.2⟩⟩

/-- C8: the seed script's delete-all on the Component table cascades:
when referential integrity holds (every Favorite and ComponentVersion
references an existing component, as any database state maintained by
the schema's foreign keys does), the delete-all empties the Favorite and
ComponentVersion tables too, while the User table is left unchanged both
by the delete-all and by the whole seed run. -/
theorem seed_frame (db : DB) (registry : List CatalogEntry) :
    ((∀ f ∈ db.favorites, f.componentId ∈ db.components.map (fun r => r.id)) →
      (deleteAllComponents db).favorites = []) ∧
    ((∀ v ∈ db.versions, v.componentId ∈ db.components.map (fun r => r.id)) →
      (deleteAllComponents db).versions = []) ∧
    (deleteAllComponents db).users = db.users ∧
    (seedMain db registry).1.users = db.users := by
  refine ⟨?_, ?_, rfl, ?_⟩
  · intro hfk
    rw [show (deleteAllComponents db).favorites =
        db.favorites.filter
          (fun f => !((db.components.map fun r => r.id).contains f.componentId)) from rfl]
    rw [List.filter_eq_nil_iff]
    intro f hf
    simpa using hfk f hf
  · intro hfk
    rw [show (deleteAllComponents db).versions =
        db.versions.filter
          (fun v => !((db.components.map fun r => r.id).contains v.componentId)) from rfl]
    rw [List.filter_eq_nil_iff]
    intro v hv
    simpa using hfk v hv
  · exact (seedLoop_frame registry (deleteAllComponents db)).2.2

theorem seed_frame_witness :
    (deleteAllComponents sampleDB).favorites = [] ∧
    (deleteAllComponents sampleDB).versions = [] ∧
    (seedMain sampleDB sampleRegistry).1.users = sampleDB.users :=
  ⟨(seed_frame sampleDB sampleRegistry).1 (by decide),
   (seed_frame sampleDB sampleRegistry).2.1 (by decide),
   (seed_frame sampleDB sampleRegistry).2.2.2⟩

/-- C7: across development-time code reloads (`NODE_ENV` not
`production`), every evaluation of the singleton module returns the same
client instance: starting from a fresh process, `n + 1` successive
module evaluations all hand out client `0`, and exactly one client is
ever constructed (the creation counter ends at 1). -/
theorem prisma_singleton (n : Nat) :
    (evalRuns false (n + 1) initModState).1 = List.replicate (n + 1) 0 ∧
    (evalRuns false (n + 1) initModState).2.nextId = 1 := by
  have hmod : evalModule false initModState = (0, ⟨some 0, 1⟩) := rfl
  rw [evalRuns, hmod]
  rw [evalRuns_stable 0 1 n]
  exact ⟨by rw [List.replicate_succ], rfl⟩

end ComponentLibrary
